import Mathlib

/-!
Verification of the asynchronous video-analysis job pipeline.

The definitions below are a shallow embedding of the TypeScript source:

* `src/lib/vertex-ai/analyze.ts` — response validation, category merging
  (`finalCategories`), score aggregation, duration formatting;
* `src/lib/analysis-state.ts` — in-memory job state store;
* `src/app/api/upload/progress/route.ts` — submit route (POST) and the
  upload-progress channel (GET / `updateProgress`);
* `src/app/api/analysis-status/route.ts` and the file-backed
  `getVideoAnalysis` fallback — status query.

JavaScript numbers are modelled as `ℚ` (so `Number.isInteger q` is
`q.den = 1`), fallible code as `Except String`, the in-memory maps as
functions `String → Option _`, and thrown exceptions as `Except.error`.
-/

/-- Admin settings as in `src/lib/types.ts` (`AdminSettings`). -/
structure AdminSettings where
  productPageUrl : String
  productDescription : String
  selectedCategories : List String
deriving DecidableEq, Repr

/-- Category entry as returned by the model (name, numeric score, feedback),
mirroring the parsed `analysisData.categories` entries in `analyze.ts`.
The score is a `ℚ` because a JS number need not be an integer. -/
structure RawCategory where
  name : String
  score : ℚ
  feedback : String
deriving DecidableEq, Repr

/-- Normalized category entry of the final result: the score is either a
validated integer or absent (`null`), as in `finalCategories` of
`analyze.ts` (lines 1026-1047). -/
structure FinalCategory where
  name : String
  score : Option ℤ
  feedback : String
deriving DecidableEq, Repr

/-- Fixed default category list of `analyzeVideo` (`analyze.ts` 885-890). -/
def defaultCategories : List String :=
  [ "product_relevance", "visual_quality", "audio_quality",
    "content_engagement", "talking_head_presence", "product_visibility",
    "use_case_demonstration", "unboxing_or_first_impressions",
    "brand_mention", "product_mention", "call_to_action" ]

/-- Requested category list: the admin-selected categories when non-empty,
else the fixed default list (`analyze.ts` 891-893). -/
def categoriesToAnalyze (adminSettings : Option AdminSettings) : List String :=
  match adminSettings with
  | some s => if s.selectedCategories.length > 0 then s.selectedCategories else defaultCategories
  | none => defaultCategories

/-- The `isValidScore` check of `finalCategories` (`analyze.ts` 1029):
`Number.isInteger(score) && score >= 1 && score <= 10`. -/
def isValidScore (q : ℚ) : Bool :=
  q.den == 1 && decide (1 ≤ q) && decide (q ≤ 10)

/-- Lookup in `returnedCategoryMap` (`analyze.ts` 1013-1023): entries with a
falsy name or feedback are skipped, and for duplicate names the last
`Map.set` wins, so we search the filtered list from the right. -/
def lookupReturned (returned : List RawCategory) (name : String) : Option RawCategory :=
  ((returned.filter (fun c => !(c.name == "") && !(c.feedback == ""))).reverse).find?
    (fun c => c.name == name)

/-- Feedback placed on a category whose returned score failed validation
(`analyze.ts` 1043). -/
def invalidScoreFeedback (q : ℚ) : String :=
  "Invalid score (" ++ toString q ++ ") received for this category."

/-- Feedback placed on a requested category with no returned entry
(`analyze.ts` 1044). -/
def notProvidedFeedback : String :=
  "Analysis for this category was not provided."

/-- The merge of `analyze.ts` 1026-1047: map each requested name to the
returned entry when its score validates, else to a placeholder entry with
an absent score. -/
def finalCategories (requested : List String) (returned : List RawCategory) :
    List FinalCategory :=
  requested.map fun requestedName =>
    match lookupReturned returned requestedName with
    | some returnedData =>
        if isValidScore returnedData.score then
          { name := requestedName, score := some returnedData.score.num,
            feedback := returnedData.feedback }
        else
          { name := requestedName, score := none,
            feedback := invalidScoreFeedback returnedData.score }
    | none =>
        { name := requestedName, score := none, feedback := notProvidedFeedback }

lemma finalCategories_name_eq (requested : List String) (returned : List RawCategory) :
    (finalCategories requested returned).map FinalCategory.name = requested := by
  unfold finalCategories
  rw [List.map_map]
  have h : ∀ a ∈ requested,
      (FinalCategory.name ∘ fun requestedName =>
        match lookupReturned returned requestedName with
        | some returnedData =>
            if isValidScore returnedData.score then
              { name := requestedName, score := some returnedData.score.num,
                feedback := returnedData.feedback }
            else
              { name := requestedName, score := none,
                feedback := invalidScoreFeedback returnedData.score }
        | none =>
            { name := requestedName, score := none,
              feedback := notProvidedFeedback }) a = id a := by
    intro a _
    cases h : lookupReturned returned a with
    | none => simp [h]
    | some rd => by_cases hv : isValidScore rd.score <;> simp [h, hv]
  rw [List.map_congr_left h, List.map_id]

/-- C1: for every requested category list (admin-selected, or the fixed
default list when the selection is empty) and every returned category list,
the normalized `categories` output has exactly one entry per requested
name, in the requested order. -/
theorem c1_categories_match_requested (adminSettings : Option AdminSettings)
    (returned : List RawCategory) :
    (finalCategories (categoriesToAnalyze adminSettings) returned).map FinalCategory.name
        = categoriesToAnalyze adminSettings
    ∧ (finalCategories (categoriesToAnalyze adminSettings) returned).length
        = (categoriesToAnalyze adminSettings).length := by
  refine ⟨finalCategories_name_eq _ _, ?_⟩
  have h := congrArg List.length (finalCategories_name_eq (categoriesToAnalyze adminSettings) returned)
  simpa using h

/-- Fixed message of `analyze.ts` 1065 when no requested category ended up
with a valid score. -/
def noValidScoresMsg : String :=
  "Score calculation failed: No valid scores (1-10) were provided for any requested category."

/-- Score aggregation of `analyze.ts` 1051-1067: filter the final list to
categories whose score is present, average them with `Math.round`
(Mathlib `round`, which is the same round-half-up `x ↦ ⌊x + 1/2⌋`), else
record the fixed `scoreError` message. Sums use `?? 0` as in the source. -/
def aggregateScores (cats : List FinalCategory) : Option ℤ × Option String :=
  let valid := cats.filter fun c => c.score.isSome
  if valid.length > 0 then
    let sumOfScores : ℤ := (valid.map fun c => c.score.getD 0).sum
    (some (round ((sumOfScores : ℚ) / (valid.length : ℚ))), none)
  else
    (none, some noValidScoresMsg)

/-- Predicate of the spec's aggregation contract: the category carries a
present integer score in `[1,10]`. -/
def hasValidScore (c : FinalCategory) : Bool :=
  match c.score with
  | some s => decide (1 ≤ s) && decide (s ≤ 10)
  | none => false

lemma finalCategories_score_range (requested : List String) (returned : List RawCategory) :
    ∀ c ∈ finalCategories requested returned, ∀ s, c.score = some s → 1 ≤ s ∧ s ≤ 10 := by
  intro c hc s hs
  unfold finalCategories at hc
  obtain ⟨rn, _, hrn⟩ := List.mem_map.mp hc
  cases h : lookupReturned returned rn with
  | none =>
    rw [h] at hrn
    simp only at hrn
    rw [← hrn] at hs
    simp at hs
  | some rd =>
    rw [h] at hrn
    by_cases hv : isValidScore rd.score
    · simp only [hv, if_true] at hrn
      rw [← hrn] at hs
      simp only at hs
      obtain rfl : rd.score.num = s := Option.some_injective _ hs
      have hden : rd.score.den = 1 := by
        have := hv
        unfold isValidScore at this
        simp only [Bool.and_eq_true, beq_iff_eq, decide_eq_true_eq] at this
        exact this.1.1
      have hq : ((rd.score.num : ℚ)) = rd.score := (Rat.den_eq_one_iff _).mp hden
      have h1 : (1 : ℚ) ≤ rd.score ∧ rd.score ≤ 10 := by
        unfold isValidScore at hv
        simp only [Bool.and_eq_true, beq_iff_eq, decide_eq_true_eq] at hv
        exact ⟨hv.1.2, hv.2⟩
      constructor
      · have : (1 : ℚ) ≤ (rd.score.num : ℚ) := by rw [hq]; exact h1.1
        exact_mod_cast this
      · have : ((rd.score.num : ℚ)) ≤ 10 := by rw [hq]; exact h1.2
        exact_mod_cast this
    · simp only [hv, if_false] at hrn
      rw [← hrn] at hs
      simp at hs

lemma finalCategories_filter_eq (requested : List String) (returned : List RawCategory) :
    (finalCategories requested returned).filter (fun c => c.score.isSome)
      = (finalCategories requested returned).filter hasValidScore := by
  apply List.filter_congr
  intro c hc
  cases h : c.score with
  | none => simp [hasValidScore, h]
  | some s =>
    have := finalCategories_score_range requested returned c hc s h
    simp [hasValidScore, h, this.1, this.2]

/-- C3: score aggregation is total (it is a Lean function, so it cannot
throw) and, on every final category list, yields the rounded-half-up mean
of the categories carrying a present integer score in `[1,10]` with no
`scoreError`, or an absent score with the fixed `scoreError` message when
no such category exists. -/
theorem c3_aggregate_mean_or_error (requested : List String) (returned : List RawCategory) :
    aggregateScores (finalCategories requested returned) =
      if ((finalCategories requested returned).filter hasValidScore).length > 0 then
        (some (round ((((((finalCategories requested returned).filter hasValidScore).map
              fun c => c.score.getD 0).sum : ℤ) : ℚ)
            / (((finalCategories requested returned).filter hasValidScore).length : ℚ))),
          none)
      else
        (none, some noValidScoresMsg) := by
  unfold aggregateScores
  rw [finalCategories_filter_eq]

lemma sum_bounds_list (l : List ℤ) (h : ∀ x ∈ l, 1 ≤ x ∧ x ≤ 10) :
    (l.length : ℤ) ≤ l.sum ∧ l.sum ≤ 10 * l.length := by
  induction l with
  | nil => simp
  | cons a t ih =>
    have ha := h a (by simp)
    have ht := ih (fun x hx => h x (by simp [hx]))
    simp only [List.sum_cons, List.length_cons]
    push_cast
    constructor <;> linarith [ha.1, ha.2, ht.1, ht.2]

lemma round_bounds (x : ℚ) (h1 : 1 ≤ x) (h2 : x ≤ 10) : 1 ≤ round x ∧ round x ≤ 10 := by
  rw [round_eq]
  constructor
  · have h : (1 : ℤ) = ⌊(3/2 : ℚ)⌋ := by norm_num
    rw [h]
    exact Int.floor_le_floor (by linarith)
  · have h : (10 : ℤ) = ⌊(21/2 : ℚ)⌋ := by norm_num
    rw [h]
    exact Int.floor_le_floor (by linarith)

/-- C10: whenever the pipeline's overall score is present it is an integer
in `[1,10]`: it is the rounded mean of final-category scores, each of which
was validated to lie in `[1,10]` before being kept. -/
theorem c10_overall_score_range (requested : List String) (returned : List RawCategory)
    (s : ℤ) (h : (aggregateScores (finalCategories requested returned)).1 = some s) :
    1 ≤ s ∧ s ≤ 10 := by
  simp only [aggregateScores] at h
  set cats := finalCategories requested returned with hcats
  set valid := cats.filter (fun c => c.score.isSome) with hvalid
  by_cases hl : valid.length > 0
  · simp only [hl, if_true, Option.some.injEq] at h
    set scores := valid.map (fun c => c.score.getD 0) with hscores
    have hrange : ∀ x ∈ scores, 1 ≤ x ∧ x ≤ 10 := by
      intro x hx
      obtain ⟨c, hc, hcx⟩ := List.mem_map.mp hx
      have hmem : c ∈ cats := List.mem_of_mem_filter hc
      have hsome : c.score.isSome := by
        have := List.of_mem_filter hc
        simpa using this
      obtain ⟨v, hv⟩ := Option.isSome_iff_exists.mp hsome
      have := finalCategories_score_range requested returned c hmem v hv
      rw [← hcx, hv]
      simpa using this
    have hsum := sum_bounds_list scores hrange
    have hlen : scores.length = valid.length := by simp [hscores]
    have hlpos : (0 : ℚ) < (valid.length : ℚ) := by exact_mod_cast hl
    have hmean1 : (1 : ℚ) ≤ (scores.sum : ℚ) / (valid.length : ℚ) := by
      rw [le_div_iff₀ hlpos]
      have : (valid.length : ℤ) ≤ scores.sum := by
        have := hsum.1
        rwa [hlen] at this
      calc (1 : ℚ) * (valid.length : ℚ) = (valid.length : ℚ) := by ring
        _ ≤ (scores.sum : ℚ) := by exact_mod_cast this
    have hmean2 : (scores.sum : ℚ) / (valid.length : ℚ) ≤ 10 := by
      rw [div_le_iff₀ hlpos]
      have : scores.sum ≤ 10 * (valid.length : ℤ) := by
        have := hsum.2
        rwa [hlen] at this
      exact_mod_cast this
    have := round_bounds _ hmean1 hmean2
    rwa [h] at this
  · simp [hl] at h

/-- Witness for C10 at a concrete input: one requested category scored 7. -/
theorem c10_overall_score_range_witness : 1 ≤ (7 : ℤ) ∧ (7 : ℤ) ≤ 10 :=
  c10_overall_score_range ["visual_quality"]
    [{ name := "visual_quality", score := 7, feedback := "fine" }] 7
    (by
      have h : finalCategories ["visual_quality"]
          [{ name := "visual_quality", score := 7, feedback := "fine" }]
          = [{ name := "visual_quality", score := some 7, feedback := "fine" }] := by decide
      rw [h]
      simp [aggregateScores])

/-- Duration normalization of `analyze.ts` 985-988: a parsed
`videoDurationSeconds` is kept only when it is a number, an integer and
non-negative; otherwise it is replaced by the sentinel `-1` ("mark as
invalid for later check"). `none` models a missing or non-numeric field. -/
def normalizeDuration (d : Option ℚ) : Int :=
  match d with
  | some q => if q.den == 1 && decide (0 ≤ q) then q.num else -1
  | none => -1

/-- Acceptance predicate of the duration check: present, integer and
non-negative. -/
def durationAccepted (d : Option ℚ) : Bool :=
  match d with
  | some q => q.den == 1 && decide (0 ≤ q)
  | none => false

/-- Model of JS `padStart(2, '0')`. -/
def pad2 (s : String) : String :=
  if s.length < 2 then String.mk (List.replicate (2 - s.length) '0') ++ s else s

/-- The `formatDuration` helper of `analyze.ts` 1107-1114: negative input
(the invalid sentinel) renders as "N/A", otherwise as zero-padded
minutes:seconds. The source's number/integer typeof checks are vacuous on
`Int`. -/
def formatDuration (totalSeconds : Int) : String :=
  if totalSeconds < 0 then "N/A"
  else pad2 (toString (totalSeconds / 60)) ++ ":" ++ pad2 (toString (totalSeconds % 60))

lemma pad2_length (s : String) : 2 ≤ (pad2 s).length := by
  unfold pad2
  by_cases h : s.length < 2
  · simp only [h, if_true]
    rw [String.length_append]
    have hm : (String.mk (List.replicate (2 - s.length) '0')).length = 2 - s.length := by
      show (List.replicate (2 - s.length) '0').length = 2 - s.length
      simp
    omega
  · simp only [h, if_false]
    omega

lemma formatDuration_ne_na (n : Int) (h : 0 ≤ n) : formatDuration n ≠ "N/A" := by
  unfold formatDuration
  have hn : ¬ n < 0 := by omega
  simp only [hn, if_false]
  intro hcontra
  have hl := congrArg String.length hcontra
  rw [String.length_append, String.length_append] at hl
  have h1 := pad2_length (toString (n / 60))
  have h2 := pad2_length (toString (n % 60))
  have hc : (":" : String).length = 1 := rfl
  have hna : ("N/A" : String).length = 3 := rfl
  omega

/-- C9: the parsed duration is rendered as "N/A" exactly when it is not an
accepted (present, integer, non-negative) value in the model response, and
a duration of exactly 0 renders as "00:00", never as "N/A". -/
theorem c9_duration_na_iff_rejected (d : Option ℚ) :
    (formatDuration (normalizeDuration d) = "N/A" ↔ durationAccepted d = false)
    ∧ formatDuration (normalizeDuration (some 0)) = "00:00"
    ∧ formatDuration 0 = "00:00" := by
  refine ⟨?_, by decide, by decide⟩
  cases d with
  | none =>
    constructor
    · intro _; rfl
    · intro _; rfl
  | some q =>
    by_cases hacc : (q.den == 1 && decide (0 ≤ q)) = true
    · have hnum : (0 : ℤ) ≤ q.num := by
        have hq : (0 : ℚ) ≤ q := by
          simp only [Bool.and_eq_true, decide_eq_true_eq] at hacc
          exact hacc.2
        exact Rat.num_nonneg.mpr hq
      have hnorm : normalizeDuration (some q) = q.num := by
        simp [normalizeDuration, hacc]
      constructor
      · intro hna
        rw [hnorm] at hna
        exact absurd hna (formatDuration_ne_na q.num hnum)
      · intro hfalse
        simp only [durationAccepted] at hfalse
        rw [hacc] at hfalse
        cases hfalse
    · have hnorm : normalizeDuration (some q) = -1 := by
        simp only [normalizeDuration]
        rw [if_neg hacc]
      constructor
      · intro _
        simp only [durationAccepted]
        exact Bool.eq_false_iff.mpr hacc
      · intro _
        rw [hnorm]
        rfl

/-- The caller-visible analysis artifact (`VideoAnalysisResult` of
`src/lib/types.ts`), with optional fields as `Option`. -/
structure VideoAnalysisResult where
  id : String
  overallScore : Option ℤ
  scoreError : Option String
  summary : String
  videoLength : String
  analysisDate : String
  categories : List FinalCategory
  recommendations : List String
  productPageUrl : Option String
  adminSettings : Option AdminSettings
  transcript : Option String
deriving DecidableEq, Repr

/-- Job lifecycle status (`analysis-state.ts` line 5). -/
inductive JobStatus where
  | pending
  | processing
  | completed
  | error
deriving DecidableEq, Repr

/-- One value of the in-memory `analysisStates` map (`analysis-state.ts`
lines 4-8). -/
structure JobEntry where
  status : JobStatus
  error : Option String
  result : Option VideoAnalysisResult
deriving DecidableEq, Repr

/-- The in-memory `analysisStates` map, as a function. -/
def JobStore := String → Option JobEntry

/-- `initializeAnalysis` (`analysis-state.ts` 10-12): set the id to
`pending`. -/
def initializeAnalysis (id : String) (m : JobStore) : JobStore :=
  fun k => if k = id then some { status := .pending, error := none, result := none } else m k

/-- `startAnalysis` (`analysis-state.ts` 14-19): if the id is tracked,
mutate only its status to `processing`; otherwise do nothing. -/
def startAnalysis (id : String) (m : JobStore) : JobStore :=
  match m id with
  | some e => fun k => if k = id then some { e with status := .processing } else m k
  | none => m

/-- `completeAnalysis` (`analysis-state.ts` 21-26): set the id to
`completed` with the result. -/
def completeAnalysis (id : String) (r : VideoAnalysisResult) (m : JobStore) : JobStore :=
  fun k => if k = id then some { status := .completed, error := none, result := some r } else m k

/-- `failAnalysis` (`analysis-state.ts` 28-33): set the id to `error` with
the message. -/
def failAnalysis (id : String) (e : String) (m : JobStore) : JobStore :=
  fun k => if k = id then some { status := .error, error := some e, result := none } else m k

/-- The background task of the submit route (`progress/route.ts` 96-107):
move to `processing`, run the analysis, and in every case record a
terminal state — `completeAnalysis` on success, `failAnalysis` on any
thrown error (the catch-all handler). -/
def runBackgroundTask (id : String) (outcome : Except String VideoAnalysisResult)
    (m : JobStore) : JobStore :=
  let m1 := startAnalysis id m
  match outcome with
  | .ok r => completeAnalysis id r m1
  | .error e => failAnalysis id e m1

/-- The terminal entry the background task records for an outcome. -/
def terminalEntry (outcome : Except String VideoAnalysisResult) : JobEntry :=
  match outcome with
  | .ok r => { status := .completed, error := none, result := some r }
  | .error e => { status := .error, error := some e, result := none }

/-- Status of the job id after each of the three steps the orchestrator
performs for one submission: initialize, start, then complete or fail. -/
def jobStatusTrace (id : String) (outcome : Except String VideoAnalysisResult)
    (m0 : JobStore) : List (Option JobStatus) :=
  let m1 := initializeAnalysis id m0
  let m2 := startAnalysis id m1
  let m3 := match outcome with
    | .ok r => completeAnalysis id r m2
    | .error e => failAnalysis id e m2
  [(m1 id).map JobEntry.status, (m2 id).map JobEntry.status, (m3 id).map JobEntry.status]

/-- Position of a status in the forward lifecycle order; both terminal
states share the last rank. -/
def statusRank : JobStatus → Nat
  | .pending => 0
  | .processing => 1
  | .completed => 2
  | .error => 2

/-- C4: the status sequence produced by the job state operations for one
submission is exactly `pending, processing,` then one terminal state, so
every observation of it is a prefix of that sequence: it never moves
backward (ranks are non-decreasing) and never skips `processing`. -/
theorem c4_status_trace_monotone (id : String) (outcome : Except String VideoAnalysisResult)
    (m0 : JobStore) :
    jobStatusTrace id outcome m0 =
        [some JobStatus.pending, some JobStatus.processing,
          some (terminalEntry outcome).status]
    ∧ ((terminalEntry outcome).status = JobStatus.completed
        ∨ (terminalEntry outcome).status = JobStatus.error)
    ∧ List.Chain' (fun a b => statusRank a ≤ statusRank b)
        [JobStatus.pending, JobStatus.processing, (terminalEntry outcome).status] := by
  cases outcome with
  | ok r =>
    refine ⟨?_, Or.inl rfl, by simp [terminalEntry, statusRank]⟩
    simp [jobStatusTrace, initializeAnalysis, startAnalysis, completeAnalysis, terminalEntry]
  | error e =>
    refine ⟨?_, Or.inr rfl, by simp [terminalEntry, statusRank]⟩
    simp [jobStatusTrace, initializeAnalysis, startAnalysis, failAnalysis, terminalEntry]

/-- C5: for every analysis outcome the background task records a terminal
state for the job: the completed entry with the result on success, the
error entry with the message on failure — never `processing`. -/
theorem c5_background_task_terminal (id : String) (outcome : Except String VideoAnalysisResult)
    (m : JobStore) :
    runBackgroundTask id outcome m id = some (terminalEntry outcome)
    ∧ ((terminalEntry outcome).status = JobStatus.completed
        ∨ (terminalEntry outcome).status = JobStatus.error)
    ∧ (terminalEntry outcome).status ≠ JobStatus.processing := by
  cases outcome with
  | ok r =>
    exact ⟨by simp [runBackgroundTask, completeAnalysis, terminalEntry],
      Or.inl rfl, by simp [terminalEntry]⟩
  | error e =>
    exact ⟨by simp [runBackgroundTask, failAnalysis, terminalEntry],
      Or.inr rfl, by simp [terminalEntry]⟩

/-- Request body of the submit route (`VideoAnalysisRequest`): `none` or an
empty string model a missing/falsy field in the JS truthiness checks. -/
structure AnalysisRequestBody where
  gcsUri : Option String
  analysisId : Option String
deriving DecidableEq, Repr

/-- JS falsiness of an optional string: missing or empty. -/
def isBlank : Option String → Bool
  | none => true
  | some s => s == ""

/-- Response body of the submit route. -/
inductive SubmitBody where
  | failure (error : String)
  | accepted (message : String) (analysisId : String)
deriving DecidableEq, Repr

/-- The synchronous part of the submit route POST
(`progress/route.ts` 72-117): reject a blank `gcsUri` or `analysisId` with
a 400 before touching the job store, otherwise record the job as `pending`
(`initializeAnalysis`) and answer 202 with the job id. The background task
(`runBackgroundTask`) is launched fire-and-forget and is not part of this
function, which is how the route returns without waiting for the
analysis. -/
def submitRoute (body : AnalysisRequestBody) (m : JobStore) : (Nat × SubmitBody) × JobStore :=
  if isBlank body.gcsUri then ((400, .failure "No video URI provided"), m)
  else if isBlank body.analysisId then ((400, .failure "No analysis ID provided"), m)
  else
    ((202, .accepted "Analysis started successfully." (body.analysisId.getD "")),
      initializeAnalysis (body.analysisId.getD "") m)

/-- C8: a request with a missing or empty video reference or job id is
rejected with a 4xx response and the job store is untouched; every other
request gets a 202 response carrying its job id and the job recorded as
`pending`, with the analysis itself not yet run. -/
theorem c8_submit_validation (body : AnalysisRequestBody) (m : JobStore) :
    if isBlank body.gcsUri || isBlank body.analysisId then
      (submitRoute body m).1.1 = 400 ∧ (submitRoute body m).2 = m
    else
      (submitRoute body m).1.1 = 202
      ∧ (submitRoute body m).1.2
          = SubmitBody.accepted "Analysis started successfully." (body.analysisId.getD "")
      ∧ ((submitRoute body m).2 (body.analysisId.getD "")).map JobEntry.status
          = some JobStatus.pending := by
  by_cases h1 : isBlank body.gcsUri
  · simp [submitRoute, h1]
  · by_cases h2 : isBlank body.analysisId
    · simp [submitRoute, h1, h2]
    · simp [submitRoute, h1, h2, initializeAnalysis]

/-- Outcome of reading the persisted analysis file
`data/analysis/(id).json` in `getVideoAnalysis` (src/unnamed/part_002
82-112): parsed content, a missing file (`ENOENT`), or any other
read/parse failure. -/
inductive FsOutcome where
  | content (r : VideoAnalysisResult)
  | enoent
  | readFailure
deriving DecidableEq, Repr

/-- The `getVideoAnalysis` fallback (src/unnamed/part_002 82-112): on a
successful read, return the record with the queried id and defaulted
date/length/settings fields; on `ENOENT` return the
`(status := processing)` marker (`Sum.inr`); on any other error return
`null`. -/
def getVideoAnalysis (id : String) (explicitSettings : Option AdminSettings)
    (now : String) (fs : FsOutcome) : Option (VideoAnalysisResult ⊕ Unit) :=
  match fs with
  | .content r =>
      some (Sum.inl
        { r with
          id := id,
          analysisDate := if r.analysisDate == "" then now else r.analysisDate,
          videoLength := if r.videoLength == "" then "00:00" else r.videoLength,
          adminSettings := explicitSettings.orElse (fun _ => r.adminSettings),
          productPageUrl :=
            (explicitSettings.orElse (fun _ => r.adminSettings)).map
              AdminSettings.productPageUrl })
  | .enoent => some (Sum.inr ())
  | .readFailure => none

/-- Response body of the status query route. -/
inductive StatusBody where
  | failure (error : Option String)
  | completedResults (results : VideoAnalysisResult)
  | processingMark
deriving DecidableEq, Repr

/-- The filesystem fallback of the status route
(`analysis-status/route.ts` 38-55): 404 when `getVideoAnalysis` returned
`null`, `processing` on the processing marker, else completed with the
record. -/
def statusFallback (id : String) (now : String) (fs : FsOutcome) : Nat × StatusBody :=
  match getVideoAnalysis id none now fs with
  | none => (404, .failure (some "Analysis not found"))
  | some (Sum.inr _) => (200, .processingMark)
  | some (Sum.inl r) => (200, .completedResults r)

/-- The status query GET (`analysis-status/route.ts` 16-55): answer from
the in-memory entry when one exists (a `completed` entry without a stored
result falls through, as in the source), else from the filesystem
fallback. -/
def analysisStatusRoute (id : String) (mem : Option JobEntry) (now : String)
    (fs : FsOutcome) : Nat × StatusBody :=
  match mem with
  | some st =>
    match st.status, st.result with
    | .error, _ => (200, .failure st.error)
    | .completed, some r => (200, .completedResults r)
    | .processing, _ => (200, .processingMark)
    | .pending, _ => (200, .processingMark)
    | .completed, none => statusFallback id now fs
  | none => statusFallback id now fs

/-- Counterexample to C6 as stated: for an id unknown both to the
in-memory store and to the Result Store (the persisted file is absent,
i.e. `ENOENT`), the query answers 200/processing, not the claimed 404. -/
theorem c6_unknown_id_not_404 :
    analysisStatusRoute "a1" none "2025-01-01" FsOutcome.enoent
        = (200, StatusBody.processingMark)
    ∧ (analysisStatusRoute "a1" none "2025-01-01" FsOutcome.enoent).1 ≠ 404 := by
  exact ⟨rfl, by decide⟩

/-- C6 (amended): with no in-memory state, a readable persisted record is
reported as completed with that record (normalized with the queried id and
defaulted date/length fields); a missing record — including a wholly
unknown id — is reported as processing, never as a fabricated completed
result; the 404 not-found answer arises exactly when the persisted record
exists but cannot be read (a non-`ENOENT` failure such as a corrupt
file). -/
theorem c6_fallback_behavior (id now : String) (r : VideoAnalysisResult) :
    analysisStatusRoute id none now (FsOutcome.content r)
        = (200, StatusBody.completedResults
            { r with
              id := id,
              analysisDate := if r.analysisDate == "" then now else r.analysisDate,
              videoLength := if r.videoLength == "" then "00:00" else r.videoLength,
              adminSettings := r.adminSettings,
              productPageUrl := r.adminSettings.map AdminSettings.productPageUrl })
    ∧ analysisStatusRoute id none now FsOutcome.enoent = (200, StatusBody.processingMark)
    ∧ analysisStatusRoute id none now FsOutcome.readFailure
        = (404, StatusBody.failure (some "Analysis not found")) := by
  refine ⟨?_, rfl, rfl⟩
  simp [analysisStatusRoute, statusFallback, getVideoAnalysis, Option.orElse]

/-- The upload-progress map (`progress/route.ts` line 5). -/
def ProgressMap := String → Option Int

/-- `updateProgress` (`progress/route.ts` 64-66): an unconditional
`Map.set`. -/
def updateProgress (uploadId : String) (progress : Int) (m : ProgressMap) : ProgressMap :=
  fun k => if k = uploadId then some progress else m k

/-- Effect of one `sendProgress` call on the stream. -/
structure ProgressStep where
  emitted : Int
  map : ProgressMap
  closed : Bool

/-- `sendProgress` (`progress/route.ts` 25-35): emit the tracked value
(defaulting to 0), and on a terminal value (100 or -1) close the stream
and delete the tracked entry. -/
def sendProgress (uploadId : String) (m : ProgressMap) : ProgressStep :=
  let progress := (m uploadId).getD 0
  if progress = 100 ∨ progress = -1 then
    { emitted := progress, map := fun k => if k = uploadId then none else m k, closed := true }
  else
    { emitted := progress, map := m, closed := false }

/-- The initially empty progress map. -/
def emptyProgress : ProgressMap := fun _ => none

/-- Counterexample to C7 as stated: after the terminal value 100 is
emitted and the entry removed, a late `updateProgress` call is not a
no-op — it re-inserts a tracked value for the id. -/
theorem c7_late_update_not_noop :
    (sendProgress "u1" (updateProgress "u1" 100 emptyProgress)).map "u1" = none
    ∧ updateProgress "u1" 50
        ((sendProgress "u1" (updateProgress "u1" 100 emptyProgress)).map) "u1" = some 50
    ∧ some (50 : Int) ≠ (none : Option Int) := by
  refine ⟨?_, ?_, by decide⟩
  · simp [sendProgress, updateProgress, emptyProgress]
  · simp [sendProgress, updateProgress, emptyProgress]

/-- C7 (amended): once a terminal progress value (100 or -1) is processed,
the stream closes and the tracked value is removed from the map; an
`Update` call for that id after removal is not an error but also not a
no-op — it stores the given value again. -/
theorem c7_terminal_close_and_late_update (uploadId : String) (m : ProgressMap) (v : Int) :
    (sendProgress uploadId (updateProgress uploadId 100 m)).closed = true
    ∧ (sendProgress uploadId (updateProgress uploadId 100 m)).map uploadId = none
    ∧ (sendProgress uploadId (updateProgress uploadId (-1) m)).closed = true
    ∧ (sendProgress uploadId (updateProgress uploadId (-1) m)).map uploadId = none
    ∧ updateProgress uploadId v
        ((sendProgress uploadId (updateProgress uploadId 100 m)).map) uploadId = some v := by
  refine ⟨?_, ?_, ?_, ?_, ?_⟩ <;> simp [sendProgress, updateProgress]

/-- Parsed shape of the model's JSON response (`analyze.ts` 967-973), with
`Option` for fields that may be missing or of the wrong type. -/
structure RawAnalysisData where
  transcript : Option String
  summary : Option String
  videoDurationSeconds : Option ℚ
  recommendations : Option (List String)
  categories : Option (List RawCategory)
deriving DecidableEq, Repr

/-- The per-entry validation loop of `analyze.ts` 992-1000: the first
entry with a blank name, a non-integer or out-of-range score, or blank
feedback makes the whole validation throw. -/
def validateCategoryEntries : List RawCategory → Except String Unit
  | [] => .ok ()
  | c :: rest =>
    if c.name == "" then .error "Invalid category entry: missing name."
    else if !(isValidScore c.score) then
      .error ("Invalid category score for " ++ c.name ++ ": " ++ toString c.score
        ++ ". Must be integer 1-10.")
    else if c.feedback == "" then
      .error ("Invalid category feedback for " ++ c.name ++ ".")
    else validateCategoryEntries rest

/-- The parse/validate stage of `analyze.ts` 975-1007: summary is required,
the duration is normalized (never fatal), recommendations and categories
arrays are required, and every category entry must pass
`validateCategoryEntries`. -/
def validateAnalysisData (d : RawAnalysisData) :
    Except String (String × Int × List String × List RawCategory) :=
  match d.summary with
  | none => .error "Missing or invalid 'summary' in JSON."
  | some s =>
    if s == "" then .error "Missing or invalid 'summary' in JSON."
    else
      let dur := normalizeDuration d.videoDurationSeconds
      match d.recommendations with
      | none => .error "Missing or invalid 'recommendations' array in JSON."
      | some recs =>
        match d.categories with
        | none => .error "Missing or invalid 'categories' array in JSON."
        | some cats =>
          match validateCategoryEntries cats with
          | .error e => .error e
          | .ok _ => .ok (s, dur, recs, cats)

/-- The post-parse portion of `analyzeVideo` (`analyze.ts` 975-1083): on a
validation throw the whole call fails with the prefixed message (1006);
otherwise the final result is built from the merged categories, the
aggregate score and the formatted duration. -/
def processGeminiResponse (requested : List String)
    (adminSettings : Option AdminSettings) (id : String) (now : String)
    (d : RawAnalysisData) : Except String VideoAnalysisResult :=
  match validateAnalysisData d with
  | .error e => .error ("Failed to process Gemini response: " ++ e)
  | .ok (s, dur, recs, cats) =>
      let finalCats := finalCategories requested cats
      let agg := aggregateScores finalCats
      .ok { id := id, overallScore := agg.1, scoreError := agg.2,
            summary := s, videoLength := formatDuration dur, analysisDate := now,
            categories := finalCats, recommendations := recs,
            productPageUrl := adminSettings.map AdminSettings.productPageUrl,
            adminSettings := adminSettings,
            transcript := d.transcript }

lemma validateCategoryEntries_ok_valid (cats : List RawCategory)
    (h : validateCategoryEntries cats = .ok ()) :
    ∀ c ∈ cats, isValidScore c.score = true := by
  induction cats with
  | nil => intro c hc; cases hc
  | cons a rest ih =>
    intro c hc
    unfold validateCategoryEntries at h
    by_cases h1 : a.name == ""
    · rw [if_pos h1] at h; cases h
    · rw [if_neg h1] at h
      by_cases h2 : !(isValidScore a.score)
      · rw [if_pos h2] at h; cases h
      · rw [if_neg h2] at h
        by_cases h3 : a.feedback == ""
        · rw [if_pos h3] at h; cases h
        · rw [if_neg h3] at h
          rcases List.mem_cons.mp hc with rfl | hmem
          · simpa using h2
          · exact ih h c hmem

lemma lookupReturned_mem (returned : List RawCategory) (name : String)
    (rd : RawCategory) (h : lookupReturned returned name = some rd) : rd ∈ returned := by
  unfold lookupReturned at h
  have h1 := List.mem_of_find?_eq_some h
  exact List.mem_of_mem_filter (List.mem_reverse.mp h1)

/-- After the strict validation loop succeeds, the invalid-score
placeholder branch of `finalCategories` (`analyze.ts` 1041-1043) is
unreachable: every final category either keeps a present score or carries
the not-provided feedback. The branch is dead code. -/
theorem invalid_score_branch_unreachable (cats : List RawCategory)
    (h : validateCategoryEntries cats = .ok ()) (requested : List String) :
    ∀ c ∈ finalCategories requested cats,
      c.score.isSome = true ∨ c.feedback = notProvidedFeedback := by
  intro c hc
  unfold finalCategories at hc
  obtain ⟨rn, _, hrn⟩ := List.mem_map.mp hc
  cases hl : lookupReturned cats rn with
  | none =>
    rw [hl] at hrn
    right
    rw [← hrn]
  | some rd =>
    rw [hl] at hrn
    have hv : isValidScore rd.score = true :=
      validateCategoryEntries_ok_valid cats h rd (lookupReturned_mem cats rn rd hl)
    left
    rw [← hrn]
    simp [hv]

/-- Witness that `invalid_score_branch_unreachable` applies to a concrete
validated list. -/
theorem invalid_score_branch_unreachable_witness :
    ∀ c ∈ finalCategories ["visual_quality"]
        [{ name := "visual_quality", score := 7, feedback := "fine" }],
      c.score.isSome = true ∨ c.feedback = notProvidedFeedback :=
  invalid_score_branch_unreachable
    [{ name := "visual_quality", score := 7, feedback := "fine" }] rfl
    ["visual_quality"]

/-- A model response that is fine except that one category entry carries
the out-of-range score 15. -/
def outOfRangeScoreData : RawAnalysisData :=
  { transcript := some "", summary := some "ok", videoDurationSeconds := some 120,
    recommendations := some [],
    categories := some [{ name := "visual_quality", score := 15, feedback := "fine" }] }

/-- C2 (code bug): a field-level defect in a returned entry IS fatal — on
an out-of-range score the validation loop throws, `analyzeVideo` rethrows
with the prefixed message, and the background task records the job as
`error` instead of completing with the category downgraded to an absent
score. -/
theorem c2_invalid_score_fatal :
    processGeminiResponse defaultCategories none "a1" "2025-01-01" outOfRangeScoreData
        = .error "Failed to process Gemini response: Invalid category score for visual_quality: 15. Must be integer 1-10."
    ∧ ((runBackgroundTask "a1"
          (processGeminiResponse defaultCategories none "a1" "2025-01-01" outOfRangeScoreData)
          (initializeAnalysis "a1" (fun _ => none))) "a1").map JobEntry.status
        = some JobStatus.error := by
  constructor
  · rfl
  · rfl
